import Mathlib

/-!
Verification of the dolma viewer pipeline (olmocr/viewer/dolmaviewer.py).

The script is embedded shallowly: Python strings become lists of
characters, the outside collaborators (object storage, rasterizer,
markdown converter, template engine) become function parameters, and
exceptions become an explicit error type threaded through Except.
-/

set_option maxRecDepth 10000

/-- Python strings are modelled as lists of characters. -/
abbrev Str := List Char

/-- Exceptions observable by the viewer script from its collaborators:
botocore credential errors, json decode errors, attribute errors on None,
other storage-client errors, and rasterization errors. -/
inductive PyErr where
  | noCredentialsError : PyErr
  | incompleteCredentialsError : PyErr
  | jsonDecodeError : Str → PyErr
  | attributeError : Str → PyErr
  | clientError : Str → PyErr
  | renderError : Str → PyErr
  deriving DecidableEq, Repr

/-- String form of an exception, as interpolated into the driver message. -/
def errStr : PyErr → Str
  | .noCredentialsError => "Unable to locate credentials".toList
  | .incompleteCredentialsError => "Partial credentials found".toList
  | .jsonDecodeError m => m
  | .attributeError m => m
  | .clientError m => m
  | .renderError m => m

/-- The apostrophe character (code point 39). -/
def apos : Char := Char.ofNat 39

/-- Expansion of one character under Python html.escape(s, quote=True).
html.escape performs successive whole-string replacements, ampersand
first; since no replacement output contains a character that a later
replacement rewrites, the sequential replacements coincide with this
single per-character expansion. -/
def escChar (c : Char) : Str :=
  if c = '&' then ['&', 'a', 'm', 'p', ';']
  else if c = '<' then ['&', 'l', 't', ';']
  else if c = '>' then ['&', 'g', 't', ';']
  else if c = '"' then ['&', 'q', 'u', 'o', 't', ';']
  else if c = apos then ['&', '#', 'x', '2', '7', ';']
  else [c]

/-- Python html.escape(page_text, quote=True) on the character-list model
(dolmaviewer.py line 51, first step). -/
def htmlEscape (s : Str) : Str := (s.map escChar).flatten

/-- Python str.replace of the ten-character escaped break marker
(ampersand l t semicolon b r ampersand g t semicolon) with a literal
br tag, scanning left to right (dolmaviewer.py line 51, second step). -/
def unescapeBr : Str → Str
  | '&' :: 'l' :: 't' :: ';' :: 'b' :: 'r' :: '&' :: 'g' :: 't' :: ';' :: rest =>
      '<' :: 'b' :: 'r' :: '>' :: unescapeBr rest
  | c :: rest => c :: unescapeBr rest
  | [] => []

/-- Reference form of the two escaping steps taken together: a literal
br tag in the input is kept verbatim, every other character is escaped. -/
def escapeKeepBr : Str → Str
  | '<' :: 'b' :: 'r' :: '>' :: rest => '<' :: 'b' :: 'r' :: '>' :: escapeKeepBr rest
  | c :: rest => escChar c ++ escapeKeepBr rest
  | [] => []

/-- Python slice index normalisation for a sequence of length n:
negative indices count from the end, and both ends clamp to the bounds. -/
def pyIndex (n : Nat) (i : Int) : Nat :=
  if i < 0 then ((n : Int) + i).toNat else min i.toNat n

/-- Python text[a:b] on the character-list model: slicing never raises,
it clamps both indices to the bounds of the list. -/
def pySlice (l : Str) (a b : Int) : Str :=
  (l.take (pyIndex l.length b)).drop (pyIndex l.length a)

/-- The text path of process_document for one span (lines 48 and 51-52):
slice the text, html-escape the slice, restore the escaped break marker,
then run the markdown converter on the result. -/
def pageTextHtml (markdown : Str → Str) (text : Str) (start_index end_index : Int) : Str :=
  markdown (unescapeBr (htmlEscape (pySlice text start_index end_index)))

/-- Replacement of every occurrence of the five-character scheme marker
(s 3 colon slash slash) with the empty string, scanning left to right as
Python str.replace does. -/
def stripS3 : Str → Str
  | 's' :: '3' :: ':' :: '/' :: '/' :: rest => stripS3 rest
  | c :: rest => c :: stripS3 rest
  | [] => []

/-- Output filename derivation (line 70): drop the scheme marker, then
replace path separators, then dots, with underscores, and append the
html suffix. The two character replacements are Python str.replace calls;
each is a per-character map because source and replacement are single
characters. -/
def sanitizeName (source_file : Str) : Str :=
  (((stripS3 source_file).map fun c => if c = '/' then '_' else c).map
      fun c => if c = '.' then '_' else c) ++ ".html".toList

example : unescapeBr (htmlEscape "a<br>b&c".toList) = "a<br>b&amp;c".toList := by decide
example : escapeKeepBr "a<br>b&c".toList = "a<br>b&amp;c".toList := by decide
example : pySlice "Hello World!!X".toList 10 15 = "d!!X".toList := by decide
example : sanitizeName "s3://b/k.pdf".toList = "b_k_pdf.html".toList := by decide
example : sanitizeName "s3://b/k/pdf".toList = "b_k_pdf.html".toList := by decide

theorem escChar_spec (a : Char) :
    (a = '&' ∧ escChar a = ['&', 'a', 'm', 'p', ';']) ∨
    (a = '<' ∧ escChar a = ['&', 'l', 't', ';']) ∨
    (a = '>' ∧ escChar a = ['&', 'g', 't', ';']) ∨
    (a = '"' ∧ escChar a = ['&', 'q', 'u', 'o', 't', ';']) ∨
    (a = apos ∧ escChar a = ['&', '#', 'x', '2', '7', ';']) ∨
    (a ≠ '&' ∧ a ≠ '<' ∧ a ≠ '>' ∧ a ≠ '"' ∧ a ≠ apos ∧ escChar a = [a]) := by
  by_cases h1 : a = '&'
  · exact Or.inl ⟨h1, by rw [h1]; decide⟩
  by_cases h2 : a = '<'
  · exact Or.inr (Or.inl ⟨h2, by rw [h2]; decide⟩)
  by_cases h3 : a = '>'
  · exact Or.inr (Or.inr (Or.inl ⟨h3, by rw [h3]; decide⟩))
  by_cases h4 : a = '"'
  · exact Or.inr (Or.inr (Or.inr (Or.inl ⟨h4, by rw [h4]; decide⟩)))
  by_cases h5 : a = apos
  · exact Or.inr (Or.inr (Or.inr (Or.inr (Or.inl ⟨h5, by rw [h5]; decide⟩))))
  · exact Or.inr (Or.inr (Or.inr (Or.inr (Or.inr
      ⟨h1, h2, h3, h4, h5, by simp [escChar, h1, h2, h3, h4, h5]⟩))))

theorem htmlEscape_nil : htmlEscape [] = [] := rfl

theorem htmlEscape_cons (c : Char) (s : Str) :
    htmlEscape (c :: s) = escChar c ++ htmlEscape s := by
  simp [htmlEscape]

theorem unescapeBr_nil : unescapeBr [] = [] := rfl

theorem unescapeBr_match (xs : Str) :
    unescapeBr ('&' :: 'l' :: 't' :: ';' :: 'b' :: 'r' :: '&' :: 'g' :: 't' :: ';' :: xs) =
      '<' :: 'b' :: 'r' :: '>' :: unescapeBr xs := rfl

set_option maxHeartbeats 4000000 in
theorem unescapeBr_cons_ne (c : Char) (xs : Str) (h : c ≠ '&') :
    unescapeBr (c :: xs) = c :: unescapeBr xs := by
  rw [unescapeBr.eq_def]
  split
  · simp_all
  · simp_all
  · simp_all

set_option maxHeartbeats 4000000 in
theorem unescapeBr_amp_ne (xs : Str)
    (h : ∀ ys, xs ≠ 'l' :: 't' :: ';' :: 'b' :: 'r' :: '&' :: 'g' :: 't' :: ';' :: ys) :
    unescapeBr ('&' :: xs) = '&' :: unescapeBr xs := by
  rw [unescapeBr.eq_def]
  split
  · rename_i heq
    simp only [List.cons.injEq] at heq
    exact absurd heq.2 (h _)
  · rename_i heq
    simp only [List.cons.injEq] at heq
    obtain ⟨h1, h2⟩ := heq
    subst h2
    rw [← h1]
  · simp_all

theorem escapeKeepBr_nil : escapeKeepBr [] = [] := rfl

theorem escapeKeepBr_br (rest : Str) :
    escapeKeepBr ('<' :: 'b' :: 'r' :: '>' :: rest) =
      '<' :: 'b' :: 'r' :: '>' :: escapeKeepBr rest := rfl

set_option maxHeartbeats 1000000 in
theorem escapeKeepBr_cons (c : Char) (rest : Str)
    (h : ∀ rest₁, c = '<' → rest = 'b' :: 'r' :: '>' :: rest₁ → False) :
    escapeKeepBr (c :: rest) = escChar c ++ escapeKeepBr rest := by
  rw [escapeKeepBr.eq_def]
  split
  · exfalso
    rename_i heq
    simp only [List.cons.injEq] at heq
    first
      | exact h _ rfl heq
      | exact h _ heq.1 heq.2
  · rename_i heq
    simp only [List.cons.injEq] at heq
    obtain ⟨h1, h2⟩ := heq
    subst h2
    rw [← h1]
  · simp_all

theorem htmlEscape_br_marker : ∀ (r X : Str),
    htmlEscape r = 'b' :: 'r' :: '&' :: 'g' :: 't' :: ';' :: X →
    ∃ r', r = 'b' :: 'r' :: '>' :: r' := by
  intro r X h
  rcases r with _ | ⟨a, r⟩
  · exact absurd h (by simp [htmlEscape])
  rw [htmlEscape_cons] at h
  rcases escChar_spec a with ⟨ha, he⟩ | ⟨ha, he⟩ | ⟨ha, he⟩ | ⟨ha, he⟩ | ⟨ha, he⟩ |
      ⟨ha1, ha2, ha3, ha4, ha5, he⟩ <;> rw [he] at h <;>
    simp only [List.cons_append, List.nil_append, List.cons.injEq] at h
  · exact absurd h.1 (by decide)
  · exact absurd h.1 (by decide)
  · exact absurd h.1 (by decide)
  · exact absurd h.1 (by decide)
  · exact absurd h.1 (by decide)
  obtain ⟨rfl, h⟩ := h
  rcases r with _ | ⟨a₂, r⟩
  · exact absurd h (by simp [htmlEscape])
  rw [htmlEscape_cons] at h
  rcases escChar_spec a₂ with ⟨hb, hf⟩ | ⟨hb, hf⟩ | ⟨hb, hf⟩ | ⟨hb, hf⟩ | ⟨hb, hf⟩ |
      ⟨hb1, hb2, hb3, hb4, hb5, hf⟩ <;> rw [hf] at h <;>
    simp only [List.cons_append, List.nil_append, List.cons.injEq] at h
  · exact absurd h.1 (by decide)
  · exact absurd h.1 (by decide)
  · exact absurd h.1 (by decide)
  · exact absurd h.1 (by decide)
  · exact absurd h.1 (by decide)
  obtain ⟨rfl, h⟩ := h
  rcases r with _ | ⟨a₃, r⟩
  · exact absurd h (by simp [htmlEscape])
  rw [htmlEscape_cons] at h
  rcases escChar_spec a₃ with ⟨hd, hg⟩ | ⟨hd, hg⟩ | ⟨hd, hg⟩ | ⟨hd, hg⟩ | ⟨hd, hg⟩ |
      ⟨hd1, hd2, hd3, hd4, hd5, hg⟩ <;> rw [hg] at h <;>
    simp only [List.cons_append, List.nil_append, List.cons.injEq] at h
  · exact absurd h.2.1 (by decide)
  · exact absurd h.2.1 (by decide)
  · exact ⟨r, by rw [hd]⟩
  · exact absurd h.2.1 (by decide)
  · exact absurd h.2.1 (by decide)
  · exact absurd h.1 hd1

theorem unescape_escape (s : Str) : unescapeBr (htmlEscape s) = escapeKeepBr s := by
  induction s using escapeKeepBr.induct with
  | case1 rest ih =>
    have h0 : htmlEscape ('<' :: 'b' :: 'r' :: '>' :: rest) =
        '&' :: 'l' :: 't' :: ';' :: 'b' :: 'r' :: '&' :: 'g' :: 't' :: ';' :: htmlEscape rest := by
      simp only [htmlEscape_cons]
      rfl
    rw [h0, unescapeBr_match, ih, escapeKeepBr_br]
  | case2 c rest hguard ih =>
    rw [htmlEscape_cons, escapeKeepBr_cons c rest hguard]
    rcases escChar_spec c with ⟨ha, he⟩ | ⟨ha, he⟩ | ⟨ha, he⟩ | ⟨ha, he⟩ | ⟨ha, he⟩ |
        ⟨ha1, ha2, ha3, ha4, ha5, he⟩ <;> rw [he] <;>
      simp only [List.cons_append, List.nil_append]
    · rw [unescapeBr_amp_ne _ (fun ys hy => by
        injection hy with h1 _
        exact absurd h1 (by decide))]
      rw [unescapeBr_cons_ne 'a' _ (by decide), unescapeBr_cons_ne 'm' _ (by decide),
        unescapeBr_cons_ne 'p' _ (by decide), unescapeBr_cons_ne ';' _ (by decide), ih]
    · rw [unescapeBr_amp_ne _ (fun ys hy => by
        injection hy with h1 hy
        injection hy with h2 hy
        injection hy with h3 hy
        obtain ⟨r', hr⟩ := htmlEscape_br_marker rest ys hy
        exact hguard r' ha hr)]
      rw [unescapeBr_cons_ne 'l' _ (by decide), unescapeBr_cons_ne 't' _ (by decide),
        unescapeBr_cons_ne ';' _ (by decide), ih]
    · rw [unescapeBr_amp_ne _ (fun ys hy => by
        injection hy with h1 _
        exact absurd h1 (by decide))]
      rw [unescapeBr_cons_ne 'g' _ (by decide), unescapeBr_cons_ne 't' _ (by decide),
        unescapeBr_cons_ne ';' _ (by decide), ih]
    · rw [unescapeBr_amp_ne _ (fun ys hy => by
        injection hy with h1 _
        exact absurd h1 (by decide))]
      rw [unescapeBr_cons_ne 'q' _ (by decide), unescapeBr_cons_ne 'u' _ (by decide),
        unescapeBr_cons_ne 'o' _ (by decide), unescapeBr_cons_ne 't' _ (by decide),
        unescapeBr_cons_ne ';' _ (by decide), ih]
    · rw [unescapeBr_amp_ne _ (fun ys hy => by
        injection hy with h1 _
        exact absurd h1 (by decide))]
      rw [unescapeBr_cons_ne '#' _ (by decide), unescapeBr_cons_ne 'x' _ (by decide),
        unescapeBr_cons_ne '2' _ (by decide), unescapeBr_cons_ne '7' _ (by decide),
        unescapeBr_cons_ne ';' _ (by decide), ih]
    · rw [unescapeBr_cons_ne c _ ha1, ih]
  | case3 => rfl

theorem cons_shift (b : Str) (c₀ : Char) (hc : c₀ ∉ b) :
    ∀ (X u v : Str), b ++ X = u ++ c₀ :: v → ∃ u', u = b ++ u' ∧ X = u' ++ c₀ :: v := by
  induction b with
  | nil => exact fun X u v h => ⟨u, rfl, h⟩
  | cons a b ih =>
    intro X u v h
    cases u with
    | nil =>
      simp only [List.nil_append, List.cons_append, List.cons.injEq] at h
      exact absurd (h.1 ▸ List.mem_cons_self a b) hc
    | cons a' u' =>
      simp only [List.cons_append, List.cons.injEq] at h
      obtain ⟨rfl, h2⟩ := h
      obtain ⟨u'', rfl, hX⟩ := ih (fun hm => hc (List.mem_cons_of_mem _ hm)) X u' v h2
      exact ⟨u'', rfl, hX⟩

theorem lt_notin_escChar (c : Char) : '<' ∉ escChar c := by
  rcases escChar_spec c with ⟨ha, he⟩ | ⟨ha, he⟩ | ⟨ha, he⟩ | ⟨ha, he⟩ | ⟨ha, he⟩ |
      ⟨ha1, ha2, ha3, ha4, ha5, he⟩ <;> rw [he]
  · decide
  · decide
  · decide
  · decide
  · decide
  · simp only [List.mem_singleton]
    exact fun hx => ha2 hx.symm

theorem gt_notin_escChar (c : Char) : '>' ∉ escChar c := by
  rcases escChar_spec c with ⟨ha, he⟩ | ⟨ha, he⟩ | ⟨ha, he⟩ | ⟨ha, he⟩ | ⟨ha, he⟩ |
      ⟨ha1, ha2, ha3, ha4, ha5, he⟩ <;> rw [he]
  · decide
  · decide
  · decide
  · decide
  · decide
  · simp only [List.mem_singleton]
    exact fun hx => ha3 hx.symm

theorem escapeKeepBr_lt_decomp (s : Str) : ∀ u v, escapeKeepBr s = u ++ '<' :: v →
    ∃ w, v = 'b' :: 'r' :: '>' :: w := by
  induction s using escapeKeepBr.induct with
  | case1 rest ih =>
    intro u v h
    rw [escapeKeepBr_br] at h
    cases u with
    | nil =>
      simp only [List.nil_append, List.cons.injEq, true_and] at h
      exact ⟨escapeKeepBr rest, h.symm⟩
    | cons a u =>
      simp only [List.cons_append, List.cons.injEq] at h
      obtain ⟨rfl, h⟩ := h
      obtain ⟨u', rfl, hX⟩ := cons_shift ['b', 'r', '>'] '<' (by decide) _ u v h
      exact ih u' v hX
  | case2 c rest hguard ih =>
    intro u v h
    rw [escapeKeepBr_cons c rest hguard] at h
    obtain ⟨u', rfl, hX⟩ := cons_shift (escChar c) '<' (lt_notin_escChar c) _ u v h
    exact ih u' v hX
  | case3 =>
    intro u v h
    rw [escapeKeepBr_nil] at h
    exact absurd h (by simp)

theorem escapeKeepBr_gt_decomp (s : Str) : ∀ u v, escapeKeepBr s = u ++ '>' :: v →
    ∃ w, u = w ++ ['<', 'b', 'r'] := by
  induction s using escapeKeepBr.induct with
  | case1 rest ih =>
    intro u v h
    rw [escapeKeepBr_br] at h
    rcases u with _ | ⟨a₀, _ | ⟨a₁, _ | ⟨a₂, _ | ⟨a₃, u⟩⟩⟩⟩
    · simp only [List.nil_append, List.cons.injEq] at h
      exact absurd h.1 (by decide)
    · simp only [List.cons_append, List.nil_append, List.cons.injEq] at h
      exact absurd h.2.1 (by decide)
    · simp only [List.cons_append, List.nil_append, List.cons.injEq] at h
      exact absurd h.2.2.1 (by decide)
    · simp only [List.cons_append, List.nil_append, List.cons.injEq] at h
      obtain ⟨rfl, rfl, rfl, -⟩ := h
      exact ⟨[], rfl⟩
    · simp only [List.cons_append, List.cons.injEq] at h
      obtain ⟨rfl, rfl, rfl, rfl, h⟩ := h
      obtain ⟨w, rfl⟩ := ih u v h
      exact ⟨'<' :: 'b' :: 'r' :: '>' :: w, by simp⟩
  | case2 c rest hguard ih =>
    intro u v h
    rw [escapeKeepBr_cons c rest hguard] at h
    obtain ⟨u', rfl, hX⟩ := cons_shift (escChar c) '>' (gt_notin_escChar c) _ u v h
    obtain ⟨w, rfl⟩ := ih u' v hX
    exact ⟨escChar c ++ w, by rw [List.append_assoc]⟩
  | case3 =>
    intro u v h
    rw [escapeKeepBr_nil] at h
    exact absurd h (by simp)

theorem amp_block (t K u v : Str) (ht : '&' ∉ t) (h : '&' :: (t ++ K) = u ++ '&' :: v) :
    (u = [] ∧ v = t ++ K) ∨ ∃ u', u = ('&' :: t) ++ u' ∧ K = u' ++ '&' :: v := by
  cases u with
  | nil =>
    simp only [List.nil_append, List.cons.injEq, true_and] at h
    exact Or.inl ⟨rfl, h.symm⟩
  | cons a u =>
    simp only [List.cons_append, List.cons.injEq] at h
    obtain ⟨rfl, h⟩ := h
    obtain ⟨u', rfl, hX⟩ := cons_shift t '&' ht K u v h
    exact Or.inr ⟨u', rfl, hX⟩

theorem escapeKeepBr_amp_decomp (s : Str) : ∀ u v, escapeKeepBr s = u ++ '&' :: v →
    (∃ w, v = 'a' :: 'm' :: 'p' :: ';' :: w) ∨ (∃ w, v = 'l' :: 't' :: ';' :: w) ∨
    (∃ w, v = 'g' :: 't' :: ';' :: w) ∨ (∃ w, v = 'q' :: 'u' :: 'o' :: 't' :: ';' :: w) ∨
    (∃ w, v = '#' :: 'x' :: '2' :: '7' :: ';' :: w) := by
  induction s using escapeKeepBr.induct with
  | case1 rest ih =>
    intro u v h
    rw [escapeKeepBr_br] at h
    obtain ⟨u', rfl, hX⟩ := cons_shift ['<', 'b', 'r', '>'] '&' (by decide) _ u v h
    exact ih u' v hX
  | case2 c rest hguard ih =>
    intro u v h
    rw [escapeKeepBr_cons c rest hguard] at h
    rcases escChar_spec c with ⟨ha, he⟩ | ⟨ha, he⟩ | ⟨ha, he⟩ | ⟨ha, he⟩ | ⟨ha, he⟩ |
        ⟨ha1, ha2, ha3, ha4, ha5, he⟩ <;> rw [he] at h <;>
      simp only [List.cons_append, List.nil_append] at h
    · rcases amp_block ['a', 'm', 'p', ';'] (escapeKeepBr rest) u v (by decide) h with
        ⟨rfl, rfl⟩ | ⟨u', rfl, hX⟩
      · exact Or.inl ⟨escapeKeepBr rest, by simp⟩
      · exact ih u' v hX
    · rcases amp_block ['l', 't', ';'] (escapeKeepBr rest) u v (by decide) h with
        ⟨rfl, rfl⟩ | ⟨u', rfl, hX⟩
      · exact Or.inr (Or.inl ⟨escapeKeepBr rest, by simp⟩)
      · exact ih u' v hX
    · rcases amp_block ['g', 't', ';'] (escapeKeepBr rest) u v (by decide) h with
        ⟨rfl, rfl⟩ | ⟨u', rfl, hX⟩
      · exact Or.inr (Or.inr (Or.inl ⟨escapeKeepBr rest, by simp⟩))
      · exact ih u' v hX
    · rcases amp_block ['q', 'u', 'o', 't', ';'] (escapeKeepBr rest) u v (by decide) h with
        ⟨rfl, rfl⟩ | ⟨u', rfl, hX⟩
      · exact Or.inr (Or.inr (Or.inr (Or.inl ⟨escapeKeepBr rest, by simp⟩)))
      · exact ih u' v hX
    · rcases amp_block ['#', 'x', '2', '7', ';'] (escapeKeepBr rest) u v (by decide) h with
        ⟨rfl, rfl⟩ | ⟨u', rfl, hX⟩
      · exact Or.inr (Or.inr (Or.inr (Or.inr ⟨escapeKeepBr rest, by simp⟩)))
      · exact ih u' v hX
    · obtain ⟨u', rfl, hX⟩ := cons_shift [c] '&' (by
        simp only [List.mem_singleton]
        exact fun hx => ha1 hx.symm) _ u v h
      exact ih u' v hX
  | case3 =>
    intro u v h
    rw [escapeKeepBr_nil] at h
    exact absurd h (by simp)

/-- C1: for every record and every span, the text path of process_document
computes the HTML fragment by first html-escaping the slice text[start:end]
(escaping angle brackets, ampersands and quotes), then replacing exactly
the escaped break-marker sequence with a literal br tag (and nothing
else), then handing the result to the markdown converter. The two escape
steps together equal escapeKeepBr, so in the string given to the markdown
converter every left angle bracket opens a literal br tag, every right
angle bracket closes one, and every ampersand starts one of the five
escape entities: no un-escaped markup character survives from the raw
slice except the restored break marker. -/
theorem text_path_escapes_in_order :
    (∀ (markdown : Str → Str) (text : Str) (a b : Int),
      pageTextHtml markdown text a b = markdown (unescapeBr (htmlEscape (pySlice text a b)))) ∧
    (∀ s : Str, unescapeBr (htmlEscape s) = escapeKeepBr s) ∧
    (∀ (s u v : Str), unescapeBr (htmlEscape s) = u ++ '<' :: v →
      ∃ w, v = 'b' :: 'r' :: '>' :: w) ∧
    (∀ (s u v : Str), unescapeBr (htmlEscape s) = u ++ '>' :: v →
      ∃ w, u = w ++ ['<', 'b', 'r']) ∧
    (∀ (s u v : Str), unescapeBr (htmlEscape s) = u ++ '&' :: v →
      (∃ w, v = 'a' :: 'm' :: 'p' :: ';' :: w) ∨ (∃ w, v = 'l' :: 't' :: ';' :: w) ∨
      (∃ w, v = 'g' :: 't' :: ';' :: w) ∨ (∃ w, v = 'q' :: 'u' :: 'o' :: 't' :: ';' :: w) ∨
      (∃ w, v = '#' :: 'x' :: '2' :: '7' :: ';' :: w)) := by
  refine ⟨fun _ _ _ _ => rfl, unescape_escape, ?_, ?_, ?_⟩
  · intro s u v h
    rw [unescape_escape] at h
    exact escapeKeepBr_lt_decomp s u v h
  · intro s u v h
    rw [unescape_escape] at h
    exact escapeKeepBr_gt_decomp s u v h
  · intro s u v h
    rw [unescape_escape] at h
    exact escapeKeepBr_amp_decomp s u v h

/-- Witness for C1: the theorem applied to the concrete slice consisting
of a break marker, a letter and an ampersand. -/
theorem text_path_escapes_in_order_witness :
    (∃ w, ('b' :: 'r' :: '>' :: 'x' :: '&' :: 'a' :: 'm' :: 'p' :: ';' :: [] : Str) =
      'b' :: 'r' :: '>' :: w) ∧
    ((∃ w, ('a' :: 'm' :: 'p' :: ';' :: [] : Str) = 'a' :: 'm' :: 'p' :: ';' :: w) ∨
      (∃ w, ('a' :: 'm' :: 'p' :: ';' :: [] : Str) = 'l' :: 't' :: ';' :: w) ∨
      (∃ w, ('a' :: 'm' :: 'p' :: ';' :: [] : Str) = 'g' :: 't' :: ';' :: w) ∨
      (∃ w, ('a' :: 'm' :: 'p' :: ';' :: [] : Str) = 'q' :: 'u' :: 'o' :: 't' :: ';' :: w) ∨
      (∃ w, ('a' :: 'm' :: 'p' :: ';' :: [] : Str) = '#' :: 'x' :: '2' :: '7' :: ';' :: w)) :=
  ⟨text_path_escapes_in_order.2.2.1 "<br>x&".toList [] _ (by decide),
   text_path_escapes_in_order.2.2.2.2 "<br>x&".toList ('<' :: 'b' :: 'r' :: '>' :: 'x' :: []) _
     (by decide)⟩

/-- Span triple (start_index, end_index, page_num) as destructured on
line 47; the components are arbitrary JSON integers. -/
abbrev Span := Int × Int × Int

/-- One rendered page as appended on line 56. -/
structure RenderedPage where
  page_num : Int
  text : Str
  image : Str
  deriving DecidableEq, Repr

/-- The attributes object of a record; only the pdf_page_numbers key is
read (line 36), absent key modelled as none. -/
structure Attributes where
  pdf_page_numbers : Option (List Span)
  deriving DecidableEq, Repr

/-- The metadata object of a record; only the Source-File key is read
(line 38), absent key modelled as none. -/
structure Metadata where
  sourceFile : Option Str
  deriving DecidableEq, Repr

/-- One parsed JSON record, with exactly the fields process_document reads
(lines 33-38); each top-level field may be absent. -/
structure Record where
  id : Option Str
  text : Option Str
  attributes : Option Attributes
  metadata : Option Metadata
  deriving DecidableEq, Repr

/-- The collaborators of the script, specified at their interface
boundary: byte retrieval from storage, PDF rasterization, markdown
conversion with table support (total: the converter must not raise),
the raw storage-client presign call, s3 path splitting, and the jinja
template. The local temporary PDF file is represented by its byte
content. -/
structure Collab where
  get_s3_bytes : Option Str → Except PyErr Str
  render_pdf_to_base64webp : Str → Int → Except PyErr Str
  markdown : Str → Str
  presign_client : Str → Str → Nat → Except PyErr Str
  parse_s3_path : Str → Str × Str
  template_render : Option Str → List RenderedPage → Option Str → Str

/-- The output file written by one process_document call (lines 70-73). -/
structure ProcOutput where
  filename : Str
  filepath : Str
  content : Str
  deriving DecidableEq, Repr

/-- Outcome of one process_document call: the produced file or the raised
exception, together with whether the explicit local_pdf.close() on
line 58 was executed before the call ended. -/
structure ProcResult where
  result : Except PyErr ProcOutput
  tempClosed : Bool

/-- Line 34: data.get with an empty-string default. -/
def dataText (d : Record) : Str := d.text.getD []

/-- Lines 35-36: data.get of attributes with empty-object default, then
attributes.get of pdf_page_numbers with empty-list default. -/
def dataSpans (d : Record) : List Span :=
  match d.attributes with
  | some a => a.pdf_page_numbers.getD []
  | none => []

/-- Lines 37-38: data.get of metadata with empty-object default, then
metadata.get of Source-File with default None. -/
def dataSourceFile (d : Record) : Option Str :=
  match d.metadata with
  | some m => m.sourceFile
  | none => none

/-- The ExpiresIn argument passed on line 26: one week minus 100 seconds. -/
def presignExpiresIn : Nat := 3600 * 24 * 7 - 100

/-- Embedding of generate_presigned_url (lines 22-30): call the storage
client with the fixed ExpiresIn; catch exactly the two credential error
classes and turn them into None, let every other exception propagate. -/
def generate_presigned_url (client : Str → Str → Nat → Except PyErr Str)
    (bucket_name key_name : Str) : Except PyErr (Option Str) :=
  match client bucket_name key_name presignExpiresIn with
  | .ok response => .ok (some response)
  | .error .noCredentialsError => .ok none
  | .error .incompleteCredentialsError => .ok none
  | .error e => .error e

/-- Lines 60-64: generate a pre-signed URL only when source_file is truthy
and starts with the s3 scheme marker; otherwise the link stays None. -/
def s3LinkFor (C : Collab) (source_file : Option Str) : Except PyErr (Option Str) :=
  match source_file with
  | none => .ok none
  | some sf =>
    if sf.isEmpty then .ok none
    else if "s3://".toList.isPrefixOf sf then
      generate_presigned_url C.presign_client (C.parse_s3_path sf).1 (C.parse_s3_path sf).2
    else .ok none

/-- The span loop of process_document (lines 45-56): for each span in
list order, slice and convert the text, rasterize the page from the one
local PDF copy, and collect the rendered pages; the first rasterization
failure aborts the loop and propagates. -/
def renderPages (C : Collab) (text : Str) (local_pdf : Str) :
    List Span → Except PyErr (List RenderedPage)
  | [] => .ok []
  | span :: rest =>
    let page_text := pageTextHtml C.markdown text span.1 span.2.1
    match C.render_pdf_to_base64webp local_pdf span.2.2 with
    | .error e => .error e
    | .ok base64_image =>
      match renderPages C text local_pdf rest with
      | .error e => .error e
      | .ok pages => .ok ({ page_num := span.2.2, text := page_text, image := base64_image } :: pages)

/-- Embedding of process_document (lines 32-73). The temporary file is
created and filled on lines 41-43; the explicit close on line 58 runs only
after the whole span loop has succeeded, so tempClosed is false on the
fetch-failure and rasterization-failure exits. A record whose metadata
carries no Source-File reaches line 70 and raises AttributeError on
None.replace there (after the template has rendered). -/
def process_document (C : Collab) (output_dir : Str) (data : Record) : ProcResult :=
  match C.get_s3_bytes (dataSourceFile data) with
  | .error e => { result := .error e, tempClosed := false }
  | .ok local_pdf =>
    match renderPages C (dataText data) local_pdf (dataSpans data) with
    | .error e => { result := .error e, tempClosed := false }
    | .ok pages =>
      match s3LinkFor C (dataSourceFile data) with
      | .error e => { result := .error e, tempClosed := true }
      | .ok s3_link =>
        let html_content := C.template_render data.id pages s3_link
        match dataSourceFile data with
        | none => { result := .error (.attributeError "NoneType has no attribute replace".toList),
                    tempClosed := true }
        | some sf =>
          { result := .ok { filename := sanitizeName sf,
                            filepath := output_dir ++ '/' :: sanitizeName sf,
                            content := html_content },
            tempClosed := true }

/-- Python str.strip: drop whitespace from both ends (line 20). -/
def stripLine (s : Str) : Str :=
  ((s.dropWhile Char.isWhitespace).reverse.dropWhile Char.isWhitespace).reverse

/-- Embedding of read_jsonl (lines 17-20): the sequence of stripped lines
of the input resource. -/
def read_jsonl (lines : List Str) : List Str := lines.map stripLine

/-- The dispatch loop (lines 91-96): skip falsy (empty) lines, parse each
remaining line, submit one task per parsed record. A parse failure raises
in the dispatch loop itself: no further line is parsed or submitted, and
the already-submitted tasks still run (their results are kept). Returns
the results of all submitted tasks and the dispatch exception, if any. -/
def submitAll (C : Collab) (output_dir : Str) (parse : Str → Except PyErr Record) :
    List Str → List ProcResult × Option PyErr
  | [] => ([], none)
  | line :: rest =>
    if line.isEmpty then submitAll C output_dir parse rest
    else
      match parse line with
      | .error e => ([], some e)
      | .ok data =>
        let r := submitAll C output_dir parse rest
        (process_document C output_dir data :: r.1, r.2)

/-- How a run of main fails: the message printed by the drain loop (none
when the exception escaped from the dispatch loop instead) and the
exception that is re-raised. -/
structure DriverFailure where
  reported : Option Str
  raised : PyErr
  deriving DecidableEq, Repr

/-- The message printed on line 102 before the failure is re-raised. -/
def reportMsg (e : PyErr) : Str := "An error occurred: ".toList ++ errStr e

/-- The drain loop (lines 98-103): observe task results in completion
order (the order of the list); on the first failed task, print the
message referencing the failure and re-raise that same exception,
abandoning the rest of the batch. -/
def drain : List ProcResult → Option DriverFailure
  | [] => none
  | f :: rest =>
    match f.result with
    | .ok _ => drain rest
    | .error e => some { reported := some (reportMsg e), raised := e }

/-- Embedding of main (lines 75-103): strip the input lines, dispatch, and
drain. A dispatch-time exception escapes without the drain loop message;
otherwise the drain loop decides the outcome. Returns the results of every
task that ran together with the failure, if any. -/
def mainRun (C : Collab) (output_dir : Str) (parse : Str → Except PyErr Record)
    (lines : List Str) : List ProcResult × Option DriverFailure :=
  match (submitAll C output_dir parse (read_jsonl lines)).2 with
  | some e =>
    ((submitAll C output_dir parse (read_jsonl lines)).1,
      some { reported := none, raised := e })
  | none =>
    ((submitAll C output_dir parse (read_jsonl lines)).1,
      drain (submitAll C output_dir parse (read_jsonl lines)).1)

/-- A well-behaved set of collaborators for concrete runs: retrieval and
rasterization always succeed, markdown is the identity, presigning
succeeds, s3 paths split trivially, and the template renders one letter P
per rendered page. -/
def okCollab : Collab where
  get_s3_bytes := fun _ => .ok "PDFBYTES".toList
  render_pdf_to_base64webp := fun _ _ => .ok "IMG".toList
  markdown := fun s => s
  presign_client := fun _ _ _ => .ok "https-presigned".toList
  parse_s3_path := fun sf => (sf, sf)
  template_render := fun _ pages _ => List.replicate pages.length 'P'

/-- The boundary-condition record of the spec: a fourteen-character text
with a span whose end index 15 lies past the end. -/
def specRecord : Record where
  id := some "doc".toList
  text := some "Hello World!!X".toList
  attributes := some { pdf_page_numbers := some [(0, 5, 1), (5, 10, 1), (10, 15, 2)] }
  metadata := some { sourceFile := some "s3://b/doc.pdf".toList }

example : (process_document okCollab "out".toList specRecord).result =
    .ok { filename := "b_doc_pdf.html".toList,
          filepath := "out/b_doc_pdf.html".toList,
          content := "PPP".toList } := rfl

/-- C2: an out-of-bounds end index does not raise: every Python slice is a
contiguous piece of the text (clamped to its bounds), the spec's
overlong span (10,15) over the fourteen-character text yields exactly the
last four characters, the same as the clamped slice (10,14), and the
record with that span list is still processed to completion. -/
theorem oob_span_is_clamped :
    (∀ (l : Str) (a b : Int), ∃ u w, l = u ++ pySlice l a b ++ w) ∧
    pySlice "Hello World!!X".toList 10 15 = "d!!X".toList ∧
    pySlice "Hello World!!X".toList 10 15 = pySlice "Hello World!!X".toList 10 14 ∧
    (process_document okCollab "out".toList specRecord).result =
      .ok { filename := "b_doc_pdf.html".toList,
            filepath := "out/b_doc_pdf.html".toList,
            content := "PPP".toList } ∧
    (process_document okCollab "out".toList specRecord).tempClosed = true := by
  refine ⟨?_, by decide, by decide, rfl, rfl⟩
  intro l a b
  refine ⟨(l.take (pyIndex l.length b)).take (pyIndex l.length a),
    l.drop (pyIndex l.length b), ?_⟩
  conv_lhs => rw [← List.take_append_drop (pyIndex l.length b) l,
    ← List.take_append_drop (pyIndex l.length a) (l.take (pyIndex l.length b))]
  simp only [pySlice]

/-- C3: the drain loop observes task results in completion order; the
first failed task makes it print the message referencing that failure and
re-raise the same exception, abandoning the remaining batch, while a batch
of only successful tasks drains with no failure. -/
theorem driver_fail_fast :
    (∀ (pre post : List ProcResult) (f : ProcResult) (e : PyErr),
      (∀ x ∈ pre, ∃ out, x.result = Except.ok out) → f.result = Except.error e →
      drain (pre ++ f :: post) = some { reported := some (reportMsg e), raised := e }) ∧
    (∀ futs : List ProcResult, (∀ x ∈ futs, ∃ out, x.result = Except.ok out) →
      drain futs = none) := by
  constructor
  · intro pre post f e hpre hf
    induction pre with
    | nil => simp only [List.nil_append, drain, hf]
    | cons x pre ih =>
      obtain ⟨out, hx⟩ := hpre x (List.mem_cons_self x pre)
      simp only [List.cons_append, drain, hx]
      exact ih (fun y hy => hpre y (List.mem_cons_of_mem x hy))
  · intro futs hok
    induction futs with
    | nil => rfl
    | cons x futs ih =>
      obtain ⟨out, hx⟩ := hok x (List.mem_cons_self x futs)
      simp only [drain, hx]
      exact ih (fun y hy => hok y (List.mem_cons_of_mem x hy))

/-- Witness for C3: a batch of one successful task followed by one failed
task drains to the reported and re-raised failure. -/
theorem driver_fail_fast_witness :
    drain
      [{ result := Except.ok
           { filename := "a.html".toList,
             filepath := "o/a.html".toList,
             content := [] },
         tempClosed := true },
       { result := Except.error (.clientError "boom".toList), tempClosed := false }] =
      some { reported := some (reportMsg (.clientError "boom".toList)),
             raised := .clientError "boom".toList } :=
  driver_fail_fast.1
    [{ result := Except.ok
         { filename := "a.html".toList,
           filepath := "o/a.html".toList,
           content := [] },
       tempClosed := true }]
    [] { result := Except.error (.clientError "boom".toList), tempClosed := false }
    (.clientError "boom".toList)
    (fun x hx => by
      simp only [List.mem_singleton] at hx
      subst hx
      exact ⟨_, rfl⟩)
    rfl

/-- C6: the TTL handed to the storage backend is the fixed constant
604700 seconds (one week minus 100 seconds), strictly below the backend
maximum of 604800 seconds; the result of generate_presigned_url depends on
the client only through its value at that TTL. -/
theorem presign_ttl_bounded :
    presignExpiresIn = 604700 ∧ presignExpiresIn < 604800 ∧
    (∀ (f g : Str → Str → Nat → Except PyErr Str) (bucket key : Str),
      f bucket key presignExpiresIn = g bucket key presignExpiresIn →
      generate_presigned_url f bucket key = generate_presigned_url g bucket key) := by
  refine ⟨rfl, by decide, ?_⟩
  intro f g bucket key h
  unfold generate_presigned_url
  rw [h]

/-- A storage client that succeeds only when asked for exactly the TTL
passed by the code. -/
def ttlProbeClient : Str → Str → Nat → Except PyErr Str :=
  fun _ _ t => if t = presignExpiresIn then .ok "u".toList else .error (.clientError "ttl".toList)

/-- Witness for C6: the TTL-probing client and the always-succeeding
client agree at the passed TTL, hence produce the same presigned URL. -/
theorem presign_ttl_bounded_witness :
    generate_presigned_url ttlProbeClient "b".toList "k".toList =
      generate_presigned_url (fun _ _ _ => .ok "u".toList) "b".toList "k".toList :=
  presign_ttl_bounded.2.2 ttlProbeClient (fun _ _ _ => .ok "u".toList) "b".toList "k".toList rfl

theorem gpu_noCredentials (f : Str → Str → Nat → Except PyErr Str) (b k : Str)
    (h : f b k presignExpiresIn = .error .noCredentialsError) :
    generate_presigned_url f b k = .ok none := by
  unfold generate_presigned_url
  rw [h]

theorem gpu_incompleteCredentials (f : Str → Str → Nat → Except PyErr Str) (b k : Str)
    (h : f b k presignExpiresIn = .error .incompleteCredentialsError) :
    generate_presigned_url f b k = .ok none := by
  unfold generate_presigned_url
  rw [h]

theorem gpu_other (f : Str → Str → Nat → Except PyErr Str) (b k : Str) (e : PyErr)
    (h : f b k presignExpiresIn = .error e) (h1 : e ≠ .noCredentialsError)
    (h2 : e ≠ .incompleteCredentialsError) :
    generate_presigned_url f b k = .error e := by
  unfold generate_presigned_url
  rw [h]
  cases e
  · exact absurd rfl h1
  · exact absurd rfl h2
  · rfl
  · rfl
  · rfl
  · rfl

theorem s3LinkFor_credfail (C : Collab) (sf? : Option Str)
    (h : ∀ b k, C.presign_client b k presignExpiresIn = .error .noCredentialsError) :
    s3LinkFor C sf? = .ok none := by
  rcases sf? with _ | sf
  · rfl
  · unfold s3LinkFor
    split
    · rfl
    · split
      · rfl
      · split
        · exact gpu_noCredentials _ _ _ (h _ _)
        · rfl

theorem process_document_ok (C : Collab) (od : Str) (data : Record) (sf pdf : Str)
    (pages : List RenderedPage) (link : Option Str)
    (h1 : dataSourceFile data = some sf) (h2 : C.get_s3_bytes (some sf) = .ok pdf)
    (h3 : renderPages C (dataText data) pdf (dataSpans data) = .ok pages)
    (h4 : s3LinkFor C (some sf) = .ok link) :
    process_document C od data =
      { result := .ok
          { filename := sanitizeName sf,
            filepath := od ++ '/' :: sanitizeName sf,
            content := C.template_render data.id pages link },
        tempClosed := true } := by
  simp only [process_document, h1, h2, h3, h4]

/-- C7: presigning maps exactly the two credential error classes of the
storage client to a None link instead of raising, lets every other
storage failure propagate, and a record whose presign call fails on
missing credentials is still rendered and written in full, with all its
pages and a None link. -/
theorem presign_credfail_nonfatal :
    (∀ (f : Str → Str → Nat → Except PyErr Str) (b k : Str),
      f b k presignExpiresIn = .error .noCredentialsError →
      generate_presigned_url f b k = .ok none) ∧
    (∀ (f : Str → Str → Nat → Except PyErr Str) (b k : Str),
      f b k presignExpiresIn = .error .incompleteCredentialsError →
      generate_presigned_url f b k = .ok none) ∧
    (∀ (f : Str → Str → Nat → Except PyErr Str) (b k : Str) (e : PyErr),
      f b k presignExpiresIn = .error e → e ≠ .noCredentialsError →
      e ≠ .incompleteCredentialsError → generate_presigned_url f b k = .error e) ∧
    (∀ (C : Collab) (od : Str) (data : Record) (sf pdf : Str) (pages : List RenderedPage),
      dataSourceFile data = some sf →
      C.get_s3_bytes (some sf) = .ok pdf →
      renderPages C (dataText data) pdf (dataSpans data) = .ok pages →
      (∀ b k, C.presign_client b k presignExpiresIn = .error .noCredentialsError) →
      process_document C od data =
        { result := .ok
            { filename := sanitizeName sf,
              filepath := od ++ '/' :: sanitizeName sf,
              content := C.template_render data.id pages none },
          tempClosed := true }) := by
  refine ⟨gpu_noCredentials, gpu_incompleteCredentials, gpu_other, ?_⟩
  intro C od data sf pdf pages h1 h2 h3 hcred
  exact process_document_ok C od data sf pdf pages none h1 h2 h3
    (s3LinkFor_credfail C (some sf) hcred)

/-- Collaborators whose storage client always reports missing
credentials. -/
def credFailCollab : Collab :=
  { okCollab with presign_client := fun _ _ _ => .error .noCredentialsError }

/-- A one-span record living at a remote s3 path. -/
def linkRecord : Record where
  id := some "doc7".toList
  text := some "hello".toList
  attributes := some { pdf_page_numbers := some [(0, 5, 1)] }
  metadata := some { sourceFile := some "s3://c/d.pdf".toList }

/-- Witness for C7: under the credential-failing client the record is
still rendered and written in full, with a None link. -/
theorem presign_credfail_nonfatal_witness :
    process_document credFailCollab "out".toList linkRecord =
      { result := .ok
          { filename := "c_d_pdf.html".toList,
            filepath := "out/c_d_pdf.html".toList,
            content := ['P'] },
        tempClosed := true } :=
  presign_credfail_nonfatal.2.2.2 credFailCollab "out".toList linkRecord
    "s3://c/d.pdf".toList "PDFBYTES".toList
    [{ page_num := 1, text := "hello".toList, image := "IMG".toList }]
    rfl rfl rfl (fun _ _ => rfl)

/-- C8: a record whose attributes object is absent, or has no
pdf_page_numbers key, or carries an empty span list, resolves to zero
spans and is still processed to completion: the output document renders
zero pages and no error is raised. -/
theorem missing_spans_zero_pages :
    ∀ (C : Collab) (od : Str) (idv : Option Str) (txt : Option Str)
      (attrs : Option Attributes) (mdt : Metadata) (sf pdf : Str) (link : Option Str),
      (attrs = none ∨ attrs = some { pdf_page_numbers := none } ∨
        attrs = some { pdf_page_numbers := some [] }) →
      mdt.sourceFile = some sf →
      C.get_s3_bytes (some sf) = .ok pdf →
      s3LinkFor C (some sf) = .ok link →
      process_document C od
        { id := idv, text := txt, attributes := attrs, metadata := some mdt } =
        { result := .ok
            { filename := sanitizeName sf,
              filepath := od ++ '/' :: sanitizeName sf,
              content := C.template_render idv [] link },
          tempClosed := true } := by
  intro C od idv txt attrs mdt sf pdf link hattrs hsf h2 h4
  refine process_document_ok C od _ sf pdf [] link ?_ h2 ?_ h4
  · simp [dataSourceFile, hsf]
  · have hspans :
        dataSpans { id := idv, text := txt, attributes := attrs, metadata := some mdt } =
          [] := by
      rcases hattrs with rfl | rfl | rfl <;> rfl
    rw [hspans]
    rfl

/-- A record with a remote source and no attributes object at all. -/
def noSpansRecord : Record where
  id := some "doc8".toList
  text := some "text".toList
  attributes := none
  metadata := some { sourceFile := some "s3://e/f.pdf".toList }

/-- Witness for C8: the attribute-less record renders an output with zero
pages. -/
theorem missing_spans_zero_pages_witness :
    process_document okCollab "out".toList noSpansRecord =
      { result := .ok
          { filename := "e_f_pdf.html".toList,
            filepath := "out/e_f_pdf.html".toList,
            content := [] },
        tempClosed := true } :=
  missing_spans_zero_pages okCollab "out".toList (some "doc8".toList) (some "text".toList)
    none { sourceFile := some "s3://e/f.pdf".toList } "s3://e/f.pdf".toList "PDFBYTES".toList
    (some "https-presigned".toList) (Or.inl rfl) rfl rfl rfl

theorem renderPages_total (C : Collab) (text pdf : Str) (img : Int → Str)
    (himg : ∀ p : Int, C.render_pdf_to_base64webp pdf p = .ok (img p)) :
    ∀ spans : List Span, renderPages C text pdf spans =
      .ok (spans.map fun sp =>
        { page_num := sp.2.2, text := pageTextHtml C.markdown text sp.1 sp.2.1,
          image := img sp.2.2 }) := by
  intro spans
  induction spans with
  | nil => rfl
  | cons sp rest ih => simp only [renderPages, himg, ih, List.map_cons]

/-- C10: a record with no text field substitutes the empty string rather
than failing: every span slices to the empty string, yet one page per span
is still rendered, carrying its rasterized image and the markdown
conversion of the empty text, and the record is processed to
completion. -/
theorem missing_text_renders_empty_pages :
    (∀ a b : Int, pySlice ([] : Str) a b = []) ∧
    (∀ (markdown : Str → Str) (a b : Int), pageTextHtml markdown [] a b = markdown []) ∧
    (∀ (C : Collab) (od : Str) (idv : Option Str) (spans : List Span) (mdt : Metadata)
      (sf pdf : Str) (img : Int → Str) (link : Option Str),
      mdt.sourceFile = some sf →
      C.get_s3_bytes (some sf) = .ok pdf →
      (∀ p : Int, C.render_pdf_to_base64webp pdf p = .ok (img p)) →
      s3LinkFor C (some sf) = .ok link →
      process_document C od
        { id := idv,
          text := none,
          attributes := some { pdf_page_numbers := some spans },
          metadata := some mdt } =
        { result := .ok
            { filename := sanitizeName sf,
              filepath := od ++ '/' :: sanitizeName sf,
              content := C.template_render idv (spans.map fun sp =>
                { page_num := sp.2.2, text := C.markdown [], image := img sp.2.2 }) link },
          tempClosed := true }) := by
  refine ⟨fun a b => by simp [pySlice], fun markdown a b => by
    simp [pageTextHtml, pySlice, htmlEscape_nil, unescapeBr_nil], ?_⟩
  intro C od idv spans mdt sf pdf img link hsf h2 himg h4
  refine process_document_ok C od _ sf pdf _ link ?_ h2 ?_ h4
  · simp [dataSourceFile, hsf]
  · have hspans :
        dataSpans
          { id := idv,
            text := none,
            attributes := some { pdf_page_numbers := some spans },
            metadata := some mdt } = spans := rfl
    have htext :
        dataText
          { id := idv,
            text := none,
            attributes := some { pdf_page_numbers := some spans },
            metadata := some mdt } = [] := rfl
    rw [hspans, htext, renderPages_total C [] pdf img himg spans]
    refine congrArg Except.ok (List.map_congr_left ?_)
    intro sp _
    simp [pageTextHtml, pySlice, htmlEscape_nil, unescapeBr_nil]

/-- A record with two spans and no text field. -/
def noTextRecord : Record where
  id := some "doc10".toList
  text := none
  attributes := some { pdf_page_numbers := some [(0, 5, 3), (5, 10, 4)] }
  metadata := some { sourceFile := some "s3://g/h.pdf".toList }

/-- Witness for C10: the text-less two-span record renders two pages. -/
theorem missing_text_renders_empty_pages_witness :
    process_document okCollab "out".toList noTextRecord =
      { result := .ok
          { filename := "g_h_pdf.html".toList,
            filepath := "out/g_h_pdf.html".toList,
            content := ['P', 'P'] },
        tempClosed := true } :=
  missing_text_renders_empty_pages.2.2 okCollab "out".toList (some "doc10".toList)
    [(0, 5, 3), (5, 10, 4)] { sourceFile := some "s3://g/h.pdf".toList } "s3://g/h.pdf".toList
    "PDFBYTES".toList (fun _ => "IMG".toList) (some "https-presigned".toList)
    rfl rfl (fun _ => rfl) rfl

/-- C9: output filename derivation is the deterministic function
sanitizeName: the two distinct source paths both map to the same
b_k_pdf.html name (the documented, accepted collision), the derivation
gives equal names on equal inputs, and every successful process_document
call names its output file exactly sanitizeName of the record's
Source-File. -/
theorem filename_derivation :
    sanitizeName "s3://b/k.pdf".toList = "b_k_pdf.html".toList ∧
    sanitizeName "s3://b/k/pdf".toList = "b_k_pdf.html".toList ∧
    "s3://b/k.pdf".toList ≠ "s3://b/k/pdf".toList ∧
    (∀ s t : Str, s = t → sanitizeName s = sanitizeName t) ∧
    (∀ (C : Collab) (od : Str) (data : Record) (out : ProcOutput),
      (process_document C od data).result = .ok out →
      ∃ sf, dataSourceFile data = some sf ∧ out.filename = sanitizeName sf) := by
  refine ⟨by decide, by decide, by decide, fun s t h => by rw [h], ?_⟩
  intro C od data out h
  unfold process_document at h
  cases hsf : dataSourceFile data with
  | none =>
    rw [hsf] at h
    cases hfe : C.get_s3_bytes (none : Option Str) with
    | error e => simp [hfe] at h
    | ok pdf =>
      simp only [hfe] at h
      cases hrp : renderPages C (dataText data) pdf (dataSpans data) with
      | error e => simp [hrp] at h
      | ok pages =>
        simp only [hrp] at h
        simp [s3LinkFor] at h
  | some sf =>
    rw [hsf] at h
    cases hfe : C.get_s3_bytes (some sf) with
    | error e => simp [hfe] at h
    | ok pdf =>
      simp only [hfe] at h
      cases hrp : renderPages C (dataText data) pdf (dataSpans data) with
      | error e => simp [hrp] at h
      | ok pages =>
        simp only [hrp] at h
        cases hlk : s3LinkFor C (some sf) with
        | error e => simp [hlk] at h
        | ok link =>
          simp only [hlk, Except.ok.injEq] at h
          exact ⟨sf, rfl, by rw [← h]⟩

/-- A record whose source path is the collision example. -/
def fileRecord : Record where
  id := some "doc9".toList
  text := some "t".toList
  attributes := some { pdf_page_numbers := some [] }
  metadata := some { sourceFile := some "s3://b/k.pdf".toList }

/-- Witness for C9: determinism applied at a concrete name, and the
filename of a concrete successful run recovered from the theorem. -/
theorem filename_derivation_witness :
    sanitizeName "x".toList = sanitizeName "x".toList ∧
    (∃ sf, dataSourceFile fileRecord = some sf ∧
      ({ filename := "b_k_pdf.html".toList, filepath := "out/b_k_pdf.html".toList,
         content := [] } : ProcOutput).filename = sanitizeName sf) :=
  ⟨filename_derivation.2.2.2.1 "x".toList "x".toList rfl,
   filename_derivation.2.2.2.2 okCollab "out".toList fileRecord
     { filename := "b_k_pdf.html".toList, filepath := "out/b_k_pdf.html".toList,
       content := [] }
     rfl⟩

/-- Collaborators whose rasterizer always raises an out-of-range error. -/
def renderFailCollab : Collab :=
  { okCollab with
      render_pdf_to_base64webp := fun _ _ => .error (.renderError "page out of range".toList) }

/-- A record with a single span. -/
def oneSpanRecord : Record where
  id := some "doc5".toList
  text := some "abc".toList
  attributes := some { pdf_page_numbers := some [(0, 3, 99)] }
  metadata := some { sourceFile := some "s3://i/j.pdf".toList }

/-- C5 (bug evidence): the explicit close of the temporary PDF file on
line 58 sits after the span loop with no try/finally or context manager,
so when rasterization raises the error propagates with the close call
skipped: cleanup is not guaranteed on exception exit paths, only on the
paths that get past the span loop. -/
theorem temp_file_not_closed_on_failure :
    (process_document renderFailCollab "out".toList oneSpanRecord).result =
      .error (.renderError "page out of range".toList) ∧
    (process_document renderFailCollab "out".toList oneSpanRecord).tempClosed = false ∧
    (process_document okCollab "out".toList oneSpanRecord).tempClosed = true :=
  ⟨rfl, rfl, rfl⟩

/-- A parse function that fails on the line B and parses every other line
to the record with no spans. -/
def parseFail : Str → Except PyErr Record :=
  fun line => if line = "B".toList then .error (.jsonDecodeError "Expecting value".toList)
    else .ok noSpansRecord

/-- Three input lines; the middle one is malformed. -/
def jsonLines : List Str := ["A".toList, "B".toList, "C".toList]

/-- Counterexample for C4: json.loads runs in the dispatch loop (line 94)
outside any per-task handler, so the malformed middle line raises during
dispatch: the run fails with no drain-loop report (reported = none, the
failure never reached a task boundary) and only the one record before the
bad line was ever submitted — the third line is never parsed or
dispatched. The claim that a parse failure is scoped to that record's
task is false on this input. -/
theorem json_parse_failure_cex :
    (mainRun okCollab "out".toList parseFail jsonLines).2 =
      some { reported := none, raised := .jsonDecodeError "Expecting value".toList } ∧
    (mainRun okCollab "out".toList parseFail jsonLines).1.length = 1 :=
  ⟨rfl, rfl⟩

theorem submitAll_dispatch_abort (C : Collab) (od : Str)
    (parse : Str → Except PyErr Record) :
    ∀ (ls : List Str) (bad : Str) (rest : List Str) (e : PyErr),
      (∀ l ∈ ls, l ≠ [] ∧ ∃ r, parse l = .ok r) → bad ≠ [] → parse bad = .error e →
      (submitAll C od parse (ls ++ bad :: rest)).2 = some e ∧
      (submitAll C od parse (ls ++ bad :: rest)).1.length = ls.length := by
  intro ls
  induction ls with
  | nil =>
    intro bad rest e _ hbad hpe
    rcases bad with _ | ⟨c, bs⟩
    · exact absurd rfl hbad
    · simp only [List.nil_append, submitAll, List.isEmpty_cons, Bool.false_eq_true,
        if_false, hpe]
      simp
  | cons l ls ih =>
    intro bad rest e hpre hbad hpe
    obtain ⟨hl, r, hr⟩ := hpre l (List.mem_cons_self l ls)
    rcases l with _ | ⟨c, cs⟩
    · exact absurd rfl hl
    · have hrec := ih bad rest e (fun x hx => hpre x (List.mem_cons_of_mem _ hx)) hbad hpe
      simp only [List.cons_append, submitAll, List.isEmpty_cons, Bool.false_eq_true,
        if_false, hr]
      exact ⟨hrec.1, by simp [hrec.2]⟩

/-- C4 amended: a JSON-parse failure of one line is raised inside the
dispatch loop, as a batch-wide failure: it carries no drain-loop report,
it stops submission at the bad line (one task per good line before it,
none after), and the whole run fails with that parse exception. -/
theorem json_parse_failure_batchwide
    (C : Collab) (od : Str) (parse : Str → Except PyErr Record)
    (pre : List Str) (bad : Str) (rest : List Str) (e : PyErr)
    (hpre : ∀ l ∈ pre, stripLine l ≠ [] ∧ ∃ r, parse (stripLine l) = .ok r)
    (hbad : stripLine bad ≠ []) (hpe : parse (stripLine bad) = .error e) :
    (mainRun C od parse (pre ++ bad :: rest)).2 =
      some { reported := none, raised := e } ∧
    (mainRun C od parse (pre ++ bad :: rest)).1.length = pre.length := by
  have hmap : ∀ l ∈ pre.map stripLine, l ≠ [] ∧ ∃ r, parse l = .ok r := by
    intro l hl
    obtain ⟨x, hx, rfl⟩ := List.mem_map.mp hl
    exact hpre x hx
  have hread : read_jsonl (pre ++ bad :: rest) =
      pre.map stripLine ++ stripLine bad :: rest.map stripLine := by
    simp [read_jsonl]
  have habort := submitAll_dispatch_abort C od parse (pre.map stripLine) (stripLine bad)
    (rest.map stripLine) e hmap hbad hpe
  unfold mainRun
  rw [hread]
  simp only [habort.1]
  exact ⟨trivial, by simp [habort.2]⟩

/-- Witness for the amended C4: one good line, one bad line, one never
reached line. -/
theorem json_parse_failure_batchwide_witness :
    (mainRun okCollab "out".toList parseFail
      (["A".toList] ++ "B".toList :: ["C".toList])).2 =
      some { reported := none, raised := .jsonDecodeError "Expecting value".toList } ∧
    (mainRun okCollab "out".toList parseFail
      (["A".toList] ++ "B".toList :: ["C".toList])).1.length = ["A".toList].length :=
  json_parse_failure_batchwide okCollab "out".toList parseFail ["A".toList] "B".toList
    ["C".toList] (.jsonDecodeError "Expecting value".toList)
    (fun l hl => by
      simp only [List.mem_singleton] at hl
      subst hl
      exact ⟨by decide, noSpansRecord, rfl⟩)
    (by decide) rfl
